import Mathlib

/-!
# xmlrpc_cpp_proxy: a shallow embedding of `tools/xmlrpc_cpp_proxy/xmlrpc_cpp_proxy.cpp`

The program asks an XML-RPC server for its methods (`system.listMethods`,
`system.methodHelp`, `system.methodSignature`), keeps those whose dotted
prefix equals a filter, and prints a C++ proxy class for them.

Effects are made explicit: every function takes the `World` (the text
written so far to the output streams, and the remote queries issued so far)
and returns its result together with the new `World`.  C++ exceptions are the
`Except.error` results; `exit(1)` is the `Except.error` of `cmdlineInfo`.

`std::string` is modelled by `String`, positions being indices into the
character list.  The only character searched for is the ASCII `'.'`.
-/

set_option autoImplicit false

namespace XmlrpcCppProxy

/-! ## Values, exceptions, streams -/

/-- The wire types of `xmlrpc_c::value::type_t`. -/
inductive XType
  | TYPE_INT
  | TYPE_BOOLEAN
  | TYPE_DOUBLE
  | TYPE_DATETIME
  | TYPE_STRING
  | TYPE_BYTESTRING
  | TYPE_ARRAY
  | TYPE_STRUCT
  | TYPE_NIL
  | TYPE_I8
  deriving DecidableEq, Repr

/-- An `xmlrpc_c::value`.  Doubles and date-times are kept in their wire
form; the program never looks inside them. -/
inductive XValue
  | int (i : Int)
  | boolean (b : Bool)
  | double (wire : String)
  | datetime (wire : String)
  | string (s : String)
  | bytestring (bytes : List Nat)
  | array (items : List XValue)
  | struct (members : List (String × XValue))
  | nil
  | i8 (i : Int)

/-- The C++ `value::type()`. -/
def XValue.type : XValue → XType
  | .int _ => .TYPE_INT
  | .boolean _ => .TYPE_BOOLEAN
  | .double _ => .TYPE_DOUBLE
  | .datetime _ => .TYPE_DATETIME
  | .string _ => .TYPE_STRING
  | .bytestring _ => .TYPE_BYTESTRING
  | .array _ => .TYPE_ARRAY
  | .struct _ => .TYPE_STRUCT
  | .nil => .TYPE_NIL
  | .i8 _ => .TYPE_I8

/-- What a C++ call can throw: an `xmlrpc_c::fault` (a class of its own, not
a `std::exception`), a `std::exception` with its `what()` text, or anything
else (caught only by `catch (...)`). -/
inductive Exc
  | fault (code : Int) (description : String)
  | error (what : String)
  | unknown
  deriving DecidableEq, Repr

/-- A remote query issued through `systemProxy`. -/
inductive Query
  | listMethods (serverUrl : String)
  | methodHelp (serverUrl : String) (methodName : String)
  | methodSignature (serverUrl : String) (methodName : String)
  deriving DecidableEq, Repr

/-- An output stream: `cout`, `cerr`, or some other `ostream`. -/
inductive Sink
  | cout
  | cerr
  | other
  deriving DecidableEq, Repr

/-- The observable state of a run: the text written to each stream and the
remote queries issued, oldest first. -/
structure World where
  cout : String
  cerr : String
  other : String
  net : List Query
  deriving DecidableEq, Repr

/-- The state in which a process starts. -/
def World.initial : World := ⟨"", "", "", []⟩

/-- The C++ `stream << text`. -/
def World.write (w : World) : Sink → String → World
  | .cout, t => { w with cout := w.cout ++ t }
  | .cerr, t => { w with cerr := w.cerr ++ t }
  | .other, t => { w with other := w.other ++ t }

/-- Record that a remote query is sent. -/
def World.query (w : World) (q : Query) : World :=
  { w with net := w.net ++ [q] }

/-- The C++ `endl`. -/
def endl : String := "\n"

/-- Text `needle` occurs somewhere in `hay`. -/
def occursIn (needle hay : String) : Prop := needle.data <:+: hay.data

instance (needle hay : String) : Decidable (occursIn needle hay) := by
  unfold occursIn; infer_instance

/-! ## `std::string` operations used by the program -/

/-- Scan for `rfind`: the index of the last `c` seen so far. -/
def rfindAux (c : Char) : List Char → Nat → Option Nat → Option Nat
  | [], _, acc => acc
  | x :: xs, i, acc => rfindAux c xs (i + 1) (if x = c then some i else acc)

/-- The C++ `s.rfind(c)`: the position of the last `c`, `none` for `npos`. -/
def rfind (s : String) (c : Char) : Option Nat := rfindAux c s.data 0 none

/-- The C++ `string(s, pos, len)`. -/
def substr (s : String) (pos len : Nat) : String := ⟨(s.data.drop pos).take len⟩

/-- The C++ `string(s, pos)`. -/
def substrFrom (s : String) (pos : Nat) : String := ⟨s.data.drop pos⟩

/-! ## The collaborators declared in headers outside this file -/

/-- The introspection facade `systemProxy` (from `systemProxy.hpp`), taken as
a parameter: what the server answers, or the exception the call throws.
`castWhat` is the `what()` text of the exception the value classes throw when
a value is converted to a type it does not have. -/
structure SystemProxy where
  listMethods : String → Except Exc XValue
  methodHelp : String → String → Except Exc String
  methodSignature : String → String → Except Exc XValue
  castWhat : String

/-- The C++ `xmlrpc_c::value_array(v)`: throws unless `v` is an array. -/
def toValueArray (sys : SystemProxy) : XValue → Except Exc (List XValue)
  | .array items => .ok items
  | _ => .error (.error sys.castWhat)

/-- The C++ `xmlrpc_c::value_string(v)` read as a `string`: throws unless `v`
is a string. -/
def toValueString (sys : SystemProxy) : XValue → Except Exc String
  | .string s => .ok s
  | _ => .error (.error sys.castWhat)

/-- Modelled from the spec: `xmlrpcMethod.hpp` is not among the sources.  A
MethodDescriptor holds the local name, the full remote name, the help text
and the signature array, in the order of the constructor call. -/
structure XmlrpcMethod where
  functionName : String
  methodName : String
  help : String
  synopsis : List XValue

/-- Modelled from the spec: `proxyClass.hpp` is not among the sources.  A
ProxyClassModel holds the class name and the method descriptors in insertion
order. -/
structure ProxyClass where
  className : String
  functions : List XmlrpcMethod

/-- Modelled from the spec: `proxyClass::addFunction` appends the descriptor
to the model's method sequence. -/
def ProxyClass.addFunction (c : ProxyClass) (m : XmlrpcMethod) : ProxyClass :=
  { c with functions := c.functions ++ [m] }

/-- The two rendering hooks of `proxyClass` (`printDeclaration`,
`printDefinition`), taken as parameters: the text the hook writes to the
stream it is given, and the exception it ends with, if any. -/
structure Renderers where
  printDeclaration : ProxyClass → String × Option Exc
  printDefinition : ProxyClass → String × Option Exc

/-! ## Command line -/

/-- The class `cmdlineInfo`. -/
structure CmdlineInfo where
  serverUrl : String
  methodPrefix : String
  localClass : String
  deriving DecidableEq, Repr

/-- The usage message of `cmdlineInfo::cmdlineInfo`. -/
def usageMessage (argc : Int) : String :=
  "There are 3 arguments: server URL, "
    ++ "prefix for the methods to include (null to include all), "
    ++ "and name to give the generated proxy class.  "
    ++ "You specified " ++ toString (argc - 1) ++ " arguments."
    ++ endl
    ++ "Example:  "
    ++ "xmlrpc_cpp_proxy http://localhost/RPC2 system systemProxy"
    ++ endl

/-- The constructor `cmdlineInfo::cmdlineInfo(argc, argv)`.  `Except.error c`
is `exit(c)`.  The runtime passes `argc` entries in `argv`, so that
`argv[1]`, `argv[2]`, `argv[3]` exist when `argc - 1` is 3. -/
def cmdlineInfo (argc : Int) (argv : List String) (w : World) :
    Except Int CmdlineInfo × World :=
  if argc - 1 ≠ 3 then
    (.error 1, w.write .cerr (usageMessage argc))
  else
    (.ok { serverUrl := argv.getD 1 ""
           methodPrefix := argv.getD 2 ""
           localClass := argv.getD 3 "" }, w)

/-! ## Collecting the class information -/

/-- Lines 73-84 of `getClassInfo`: break the method name into two pieces,
`(methodPrefix, functionName)`. -/
def splitMethodName (methodName : String) : String × String :=
  match rfind methodName '.' with
  | none => ("", methodName)
  | some lastDot => (substr methodName 0 lastDot, substrFrom methodName (lastDot + 1))

/-- The warning `getClassInfo` writes for a method without signatures. -/
def skipWarning (methodName : String) : String :=
  "Skipping method " ++ methodName ++ " "
    ++ "because server does not report any signatures "
    ++ "for it (via system.methodSignature method)"
    ++ endl

/-- The `for` loop of `getClassInfo`, over the elements still to visit. -/
def collectLoop (sys : SystemProxy) (serverUrl classPrefix : String) :
    List XValue → ProxyClass → World → Except Exc ProxyClass × World
  | [], theClass, w => (.ok theClass, w)
  | v :: rest, theClass, w =>
    match toValueString sys v with
    | .error e => (.error e, w)
    | .ok methodName =>
      if (splitMethodName methodName).1 = classPrefix then
        let w1 := w.query (.methodHelp serverUrl methodName)
        match sys.methodHelp serverUrl methodName with
        | .error e => (.error e, w1)
        | .ok help =>
          let w2 := w1.query (.methodSignature serverUrl methodName)
          match sys.methodSignature serverUrl methodName with
          | .error e => (.error e, w2)
          | .ok signatureList =>
            if signatureList.type ≠ .TYPE_ARRAY then
              collectLoop sys serverUrl classPrefix rest theClass
                (w2.write .cerr (skipWarning methodName))
            else
              match toValueArray sys signatureList with
              | .error e => (.error e, w2)
              | .ok synopsis =>
                collectLoop sys serverUrl classPrefix rest
                  (theClass.addFunction
                    ⟨(splitMethodName methodName).2, methodName, help, synopsis⟩)
                  w2
      else
        collectLoop sys serverUrl classPrefix rest theClass w

/-- The function `getClassInfo`.  `arraySize` is an `unsigned int`; the loop
visits the elements of index `0 .. arraySize - 1`. -/
def getClassInfo (sys : SystemProxy) (serverUrl classPrefix className : String)
    (w : World) : Except Exc ProxyClass × World :=
  let theClass : ProxyClass := ⟨className, []⟩
  let w0 := w.query (.listMethods serverUrl)
  match sys.listMethods serverUrl with
  | .error e => (.error e, w0)
  | .ok r =>
    match toValueArray sys r with
    | .error e => (.error e, w0)
    | .ok methods =>
      let arraySize := methods.length % 2 ^ 32
      collectLoop sys serverUrl classPrefix (methods.take arraySize) theClass w0

/-! ## Printing -/

/-- The text `printHeader` writes before the declarations. -/
def headerProlog (className : String) : String :=
  "// Interface definition for " ++ className ++ " class, "
    ++ "an XML-RPC FOR C/C++ proxy class" ++ endl
    ++ ("// Generated by 'xmlrpc_cpp_proxy'" ++ endl)
    ++ endl
    ++ ("#ifndef " ++ ("_" ++ className ++ "_H_") ++ endl)
    ++ ("#define " ++ ("_" ++ className ++ "_H_") ++ " 1" ++ endl)
    ++ endl
    ++ ("#include <string>" ++ endl)
    ++ ("#include <xmlrpc-c/client_simple.hpp>" ++ endl)
    ++ endl

/-- The text `printHeader` writes after the declarations. -/
def headerEpilog (className : String) : String :=
  endl ++ ("#endif /* " ++ ("_" ++ className ++ "_H_") ++ " */" ++ endl)

/-- The function `printHeader(out, classInfo)`.  The declarations go to
`cout`, as in `classInfo.printDeclaration(cout)`; a `std::exception` is
rethrown as a `logic_error` naming the class. -/
def printHeader (r : Renderers) (out : Sink) (classInfo : ProxyClass) (w : World) :
    Except Exc Unit × World :=
  let className := classInfo.className
  let w1 := w.write out (headerProlog className)
  let w2 := w1.write .cout (r.printDeclaration classInfo).1
  match (r.printDeclaration classInfo).2 with
  | some (.error what) =>
    (.error (.error ("Failed to generate header for class " ++ className ++ ".  " ++ what)), w2)
  | some e => (.error e, w2)
  | none => (.ok (), w2.write out (headerEpilog className))

/-- The text `printCppFile` writes before the definitions. -/
def cppProlog (className : String) : String :=
  "// " ++ className ++ " - " ++ "an XML-RPC FOR C/C++ proxy class" ++ endl
    ++ ("// Generated by 'xmlrpc_cpp_proxy'" ++ endl)
    ++ endl
    ++ ("#include \"" ++ className ++ ".h\"" ++ endl)

/-- The function `printCppFile(out, classInfo)`.  The definitions go to
`cout`, as in `classInfo.printDefinition(cout)`; an `xmlrpc_c::fault` is
rethrown as a `logic_error` naming the class and carrying the description. -/
def printCppFile (r : Renderers) (out : Sink) (classInfo : ProxyClass) (w : World) :
    Except Exc Unit × World :=
  let className := classInfo.className
  let w1 := w.write out (cppProlog className)
  let w2 := w1.write .cout (r.printDefinition classInfo).1
  match (r.printDefinition classInfo).2 with
  | some (.fault _ description) =>
    (.error (.error ("Failed to generate definition for class " ++ className ++ ".  "
      ++ description)), w2)
  | some e => (.error e, w2)
  | none => (.ok (), w2)

/-- The `try` block of `main`. -/
def mainBody (sys : SystemProxy) (r : Renderers) (cmdline : CmdlineInfo) (w : World) :
    Except Exc Unit × World :=
  match getClassInfo sys cmdline.serverUrl cmdline.methodPrefix cmdline.localClass w with
  | (.error e, w1) => (.error e, w1)
  | (.ok system, w1) =>
    match printHeader r .cout system w1 with
    | (.error e, w2) => (.error e, w2)
    | (.ok _, w2) => printCppFile r .cout system (w2.write .cout endl)

/-- The function `main`: `myName` is `argv[0]`, `args` are the arguments
after it.  The result is the exit code and the final state. -/
def main (sys : SystemProxy) (r : Renderers) (myName : String) (args : List String)
    (w : World) : Int × World :=
  match cmdlineInfo ((myName :: args).length) (myName :: args) w with
  | (.error code, w1) => (code, w1)
  | (.ok cmdline, w1) =>
    match mainBody sys r cmdline w1 with
    | (.ok _, w2) => (0, w2)
    | (.error (.fault code description), w2) =>
      (1, w2.write .cerr (myName ++ ": XML-RPC fault #" ++ toString code
        ++ ": " ++ description ++ endl))
    | (.error (.error what), w2) => (1, w2.write .cerr (myName ++ ": " ++ what ++ endl))
    | (.error .unknown, w2) => (1, w2.write .cerr (myName ++ ": Unknown exception" ++ endl))

/-! ## The vocabulary of the properties -/

/-- The descriptor expected for a listed name, when help and signature of
each name are given by `helpOf` and `sigOf`: none unless the prefix equals the
filter and the signature result is an array. -/
def descriptorFor (classPrefix : String) (helpOf : String → String)
    (sigOf : String → XValue) (n : String) : Option XmlrpcMethod :=
  if (splitMethodName n).1 = classPrefix then
    match sigOf n with
    | .array sigs => some ⟨(splitMethodName n).2, n, helpOf n, sigs⟩
    | _ => none
  else
    none

/-- The expected method sequence: the descriptors of the listed names, in
the order of the list, duplicates kept. -/
def expectedMethods (classPrefix : String) (helpOf : String → String)
    (sigOf : String → XValue) (names : List String) : List XmlrpcMethod :=
  names.filterMap (descriptorFor classPrefix helpOf sigOf)

/-- The expected warnings: one for each listed name that matches the filter
and has no signature array, in the order of the list. -/
def expectedWarnings (classPrefix : String) (sigOf : String → XValue) :
    List String → String
  | [] => ""
  | n :: rest =>
    (if (splitMethodName n).1 = classPrefix ∧ (sigOf n).type ≠ .TYPE_ARRAY
      then skipWarning n else "")
      ++ expectedWarnings classPrefix sigOf rest

/-- The expected queries after `listMethods`: help and signature of each
listed name that matches the filter, in the order of the list. -/
def expectedQueries (serverUrl classPrefix : String) : List String → List Query
  | [] => []
  | n :: rest =>
    (if (splitMethodName n).1 = classPrefix
      then [Query.methodHelp serverUrl n, Query.methodSignature serverUrl n] else [])
      ++ expectedQueries serverUrl classPrefix rest

/-- A server that answers every query: the names it lists, and the help and
signature of each name. -/
def answering (names : List String) (helpOf : String → String)
    (sigOf : String → XValue) : SystemProxy where
  listMethods := fun _ => .ok (.array (names.map .string))
  methodHelp := fun _ n => .ok (helpOf n)
  methodSignature := fun _ n => .ok (sigOf n)
  castWhat := "type mismatch"

/-- The help texts of the sample server. -/
def sampleHelp (n : String) : String :=
  if n = "sample.add" then "adds two ints" else ""

/-- The signatures of the sample server: `sample.add` takes two ints and
returns an int, the other methods report no signature. -/
def sampleSig (n : String) : XValue :=
  if n = "sample.add" then .array [.array [.string "int", .string "int", .string "int"]]
  else .string "undef"

/-- The sample server of the end-to-end scenario. -/
def sampleServer : SystemProxy :=
  answering ["system.listMethods", "sample.add", "sample.echo"] sampleHelp sampleSig

/-- A server whose only method, `a.f`, has an empty signature array. -/
def emptySigServer : SystemProxy :=
  answering ["a.f"] (fun _ => "") (fun _ => .array [])

/-- The sample server with the help and signature queries of
`system.listMethods`, a name outside the filter `sample`, turned into faults. -/
def faultySampleServer : SystemProxy :=
  { sampleServer with
    methodHelp := fun url n =>
      if n = "system.listMethods" then .error (.fault 7 "no help")
      else sampleServer.methodHelp url n
    methodSignature := fun url n =>
      if n = "system.listMethods" then .error (.fault 8 "no signature")
      else sampleServer.methodSignature url n }

/-- A server whose only method is named `.foo`. -/
def dotServer : SystemProxy :=
  answering [".foo"] (fun _ => "") (fun _ => .array [.array [.string "int"]])

/-- A server with one method without prefix, `ping`, and one with prefix. -/
def plainServer : SystemProxy :=
  answering ["ping", "sample.add"] (fun _ => "") (fun _ => .array [.array [.string "int"]])

/-- A server that cannot be reached: every query ends in a fault. -/
def downServer : SystemProxy where
  listMethods := fun _ => .error (.fault 3 "connection refused")
  methodHelp := fun _ _ => .error (.fault 3 "connection refused")
  methodSignature := fun _ _ => .error (.fault 3 "connection refused")
  castWhat := "type mismatch"

/-- Rendering hooks that write a fixed text and end well. -/
def sampleRenderers : Renderers where
  printDeclaration := fun c => ("class " ++ c.className ++ ";" ++ endl, none)
  printDefinition := fun c => ("// methods of " ++ c.className ++ endl, none)

/-- Rendering hooks of which the second ends in the fault 42, `boom`. -/
def faultyRenderers : Renderers where
  printDeclaration := fun c => ("class " ++ c.className ++ ";" ++ endl, none)
  printDefinition := fun _ => ("", some (.fault 42 "boom"))

/-- The part of a run in which a fault is raised. -/
inductive Stage
  | collection
  | declaration
  | definition
  deriving DecidableEq, Repr

/-- The fault `code`, `description` is raised at the given stage of the run
of `main` with the arguments `serverUrl`, `classPrefix`, `className`: by a
query of `getClassInfo`, by `printDeclaration` on the collected model, or,
that one having ended well, by `printDefinition` on the collected model. -/
def faultRaised (sys : SystemProxy) (r : Renderers)
    (serverUrl classPrefix className : String) (w : World)
    (code : Int) (description : String) : Stage → Prop
  | .collection =>
    (getClassInfo sys serverUrl classPrefix className w).1 = .error (.fault code description)
  | .declaration =>
    match (getClassInfo sys serverUrl classPrefix className w).1 with
    | .ok c => (r.printDeclaration c).2 = some (.fault code description)
    | .error _ => False
  | .definition =>
    match (getClassInfo sys serverUrl classPrefix className w).1 with
    | .ok c => (r.printDeclaration c).2 = none ∧
        (r.printDefinition c).2 = some (.fault code description)
    | .error _ => False

/-- The diagnostic `main` writes for a fault raised at the given stage. -/
def faultDiagnostic (myName className : String) (code : Int) (description : String) :
    Stage → String
  | .definition =>
    myName ++ ": " ++ ("Failed to generate definition for class " ++ className ++ ".  "
      ++ description) ++ endl
  | _ => myName ++ ": XML-RPC fault #" ++ toString code ++ ": " ++ description ++ endl

/-! ## The search for the last separator -/

/-- The scan started at index `i` shifts the result of the scan started at `0`. -/
theorem rfindAux_shift (c : Char) (l : List Char) (i : Nat) (acc : Option Nat) :
    rfindAux c l i acc =
      match rfindAux c l 0 none with
      | some k => some (i + k)
      | none => acc := by
  induction l generalizing i acc with
  | nil => simp [rfindAux]
  | cons x xs ih =>
    simp only [rfindAux]
    rw [ih (i + 1), ih (0 + 1)]
    cases h : rfindAux c xs 0 none with
    | some k => simp; omega
    | none => by_cases hx : x = c <;> simp [hx]

/-- How `rfind` recurses over the characters. -/
theorem rfindAux_cons (c x : Char) (xs : List Char) :
    rfindAux c (x :: xs) 0 none =
      match rfindAux c xs 0 none with
      | some k => some (k + 1)
      | none => if x = c then some 0 else none := by
  simp only [rfindAux]
  rw [rfindAux_shift]
  cases h : rfindAux c xs 0 none with
  | some k => simp; omega
  | none => simp

/-- The search finds nothing exactly when the character does not occur. -/
theorem rfindAux_none (c : Char) (l : List Char) :
    rfindAux c l 0 none = none ↔ c ∉ l := by
  induction l with
  | nil => simp [rfindAux]
  | cons x xs ih =>
    rw [rfindAux_cons]
    cases h : rfindAux c xs 0 none with
    | some k =>
      have : c ∈ xs := by
        by_contra hc
        rw [ih.mpr hc] at h
        cases h
      simp [this]
    | none =>
      have hc : c ∉ xs := ih.mp h
      by_cases hx : x = c
      · simp [hx]
      · simp [hx, hc, Ne.symm hx]

/-- A found position splits the text at an occurrence after which the
character occurs no more. -/
theorem rfindAux_some (c : Char) (l : List Char) (k : Nat)
    (h : rfindAux c l 0 none = some k) :
    l = l.take k ++ c :: l.drop (k + 1) ∧ c ∉ l.drop (k + 1) := by
  induction l generalizing k with
  | nil => simp [rfindAux] at h
  | cons x xs ih =>
    rw [rfindAux_cons] at h
    cases h2 : rfindAux c xs 0 none with
    | some j =>
      rw [h2] at h
      simp only [Option.some.injEq] at h
      subst h
      obtain ⟨h3, h4⟩ := ih j h2
      refine ⟨?_, ?_⟩
      · simp only [List.take_succ_cons, List.drop_succ_cons, List.cons_append]
        rw [← h3]
      · simpa using h4
    | none =>
      rw [h2] at h
      by_cases hx : x = c
      · simp only [hx, if_true, Option.some.injEq] at h
        subst h
        have hc : c ∉ xs := (rfindAux_none c xs).mp h2
        simp [hx, hc]
      · simp [hx] at h

/-! ## Splitting a method name -/

/-- A name without separator is its own local name, with an empty prefix. -/
theorem splitMethodName_of_not_mem (name : String) (h : '.' ∉ name.data) :
    splitMethodName name = ("", name) := by
  unfold splitMethodName rfind
  rw [(rfindAux_none '.' name.data).mpr h]

/-- A name with a separator is cut at a position after which no separator
occurs. -/
theorem splitMethodName_of_mem (name : String) (h : '.' ∈ name.data) :
    ∃ k, rfind name '.' = some k ∧
      splitMethodName name = (⟨name.data.take k⟩, ⟨name.data.drop (k + 1)⟩) ∧
      name.data = name.data.take k ++ '.' :: name.data.drop (k + 1) ∧
      '.' ∉ name.data.drop (k + 1) := by
  cases hr : rfindAux '.' name.data 0 none with
  | none => exact absurd h ((rfindAux_none '.' name.data).mp hr)
  | some k =>
    obtain ⟨h1, h2⟩ := rfindAux_some '.' name.data k hr
    refine ⟨k, hr, ?_, h1, h2⟩
    unfold splitMethodName rfind
    rw [hr]
    simp [substr, substrFrom]

/-- C2: the split performed by `getClassInfo`.  A name without `'.'` has the
empty prefix and is its own local name; any other name is its prefix, then
`"."`, then its local name, and the local name has no `'.'`.  The name
`"a.b.c"` splits into `"a.b"` and `"c"`. -/
theorem splitMethodName_spec (name : String) :
    ('.' ∉ name.data → splitMethodName name = ("", name)) ∧
    ('.' ∈ name.data →
      name = (splitMethodName name).1 ++ "." ++ (splitMethodName name).2 ∧
      '.' ∉ (splitMethodName name).2.data) ∧
    splitMethodName "a.b.c" = ("a.b", "c") := by
  refine ⟨splitMethodName_of_not_mem name, ?_, by decide⟩
  intro h
  obtain ⟨k, -, h1, h2, h3⟩ := splitMethodName_of_mem name h
  rw [h1]
  refine ⟨?_, h3⟩
  apply String.ext
  simp only [String.data_append]
  simpa using h2

/-- C2 on `a.b.c`: the name has a `'.'`, and is cut into `a.b` and `c`. -/
theorem splitMethodName_spec_abc :
    "a.b.c" = (splitMethodName "a.b.c").1 ++ "." ++ (splitMethodName "a.b.c").2 ∧
      '.' ∉ (splitMethodName "a.b.c").2.data :=
  (splitMethodName_spec "a.b.c").2.1 (by decide)

/-! ## One turn of the collection loop -/

/-- An element that is not a string ends the loop with the conversion error. -/
theorem collectLoop_not_string (sys : SystemProxy) (url cp : String) (v : XValue)
    (rest : List XValue) (cls : ProxyClass) (w : World) (hv : v.type ≠ .TYPE_STRING) :
    collectLoop sys url cp (v :: rest) cls w = (.error (.error sys.castWhat), w) := by
  cases v <;> first | exact absurd rfl hv | rfl

/-- A name whose prefix is not the filter is passed over without any effect. -/
theorem collectLoop_passes_over (sys : SystemProxy) (url cp n : String)
    (rest : List XValue) (cls : ProxyClass) (w : World)
    (hp : (splitMethodName n).1 ≠ cp) :
    collectLoop sys url cp (.string n :: rest) cls w = collectLoop sys url cp rest cls w := by
  simp [collectLoop, toValueString, hp]

/-- A failing help query ends the loop. -/
theorem collectLoop_help_error (sys : SystemProxy) (url cp n : String)
    (rest : List XValue) (cls : ProxyClass) (w : World) (e : Exc)
    (hp : (splitMethodName n).1 = cp) (hh : sys.methodHelp url n = .error e) :
    collectLoop sys url cp (.string n :: rest) cls w
      = (.error e, w.query (.methodHelp url n)) := by
  simp [collectLoop, toValueString, hp, hh]

/-- A failing signature query ends the loop. -/
theorem collectLoop_sig_error (sys : SystemProxy) (url cp n help : String)
    (rest : List XValue) (cls : ProxyClass) (w : World) (e : Exc)
    (hp : (splitMethodName n).1 = cp) (hh : sys.methodHelp url n = .ok help)
    (hs : sys.methodSignature url n = .error e) :
    collectLoop sys url cp (.string n :: rest) cls w
      = (.error e, (w.query (.methodHelp url n)).query (.methodSignature url n)) := by
  simp [collectLoop, toValueString, hp, hh, hs]

/-- A matching name without signature array: a warning, and the loop goes on
with the same model. -/
theorem collectLoop_no_signature (sys : SystemProxy) (url cp n help : String)
    (rest : List XValue) (cls : ProxyClass) (w : World) (v : XValue)
    (hp : (splitMethodName n).1 = cp) (hh : sys.methodHelp url n = .ok help)
    (hs : sys.methodSignature url n = .ok v) (hv : v.type ≠ .TYPE_ARRAY) :
    collectLoop sys url cp (.string n :: rest) cls w
      = collectLoop sys url cp rest cls
          (((w.query (.methodHelp url n)).query (.methodSignature url n)).write .cerr
            (skipWarning n)) := by
  simp [collectLoop, toValueString, hp, hh, hs, hv]

/-- A matching name with a signature array: its descriptor is appended and
the loop goes on. -/
theorem collectLoop_add (sys : SystemProxy) (url cp n help : String)
    (rest : List XValue) (cls : ProxyClass) (w : World) (sigs : List XValue)
    (hp : (splitMethodName n).1 = cp) (hh : sys.methodHelp url n = .ok help)
    (hs : sys.methodSignature url n = .ok (.array sigs)) :
    collectLoop sys url cp (.string n :: rest) cls w
      = collectLoop sys url cp rest
          (cls.addFunction ⟨(splitMethodName n).2, n, help, sigs⟩)
          ((w.query (.methodHelp url n)).query (.methodSignature url n)) := by
  simp [collectLoop, toValueString, hp, hh, hs, XValue.type, toValueArray]

/-- The loop over a concatenation runs the first part and, unless that
throws, the second part from where the first ended. -/
theorem collectLoop_append (sys : SystemProxy) (url cp : String)
    (xs ys : List XValue) (cls : ProxyClass) (w : World) :
    collectLoop sys url cp (xs ++ ys) cls w =
      match collectLoop sys url cp xs cls w with
      | (.ok c, w1) => collectLoop sys url cp ys c w1
      | (.error e, w1) => (.error e, w1) := by
  induction xs generalizing cls w with
  | nil => simp [collectLoop]
  | cons v rest ih =>
    by_cases hv : v.type = .TYPE_STRING
    · obtain ⟨n, rfl⟩ : ∃ n, v = .string n := by
        cases v <;> first | exact ⟨_, rfl⟩ | (simp [XValue.type] at hv)
      by_cases hp : (splitMethodName n).1 = cp
      · cases hh : sys.methodHelp url n with
        | error e =>
          rw [List.cons_append, collectLoop_help_error _ _ _ _ _ _ _ e hp hh,
            collectLoop_help_error _ _ _ _ _ _ _ e hp hh]
        | ok help =>
          cases hs : sys.methodSignature url n with
          | error e =>
            rw [List.cons_append, collectLoop_sig_error _ _ _ _ _ _ _ _ e hp hh hs,
              collectLoop_sig_error _ _ _ _ _ _ _ _ e hp hh hs]
          | ok sv =>
            by_cases ha : sv.type = .TYPE_ARRAY
            · obtain ⟨sigs, rfl⟩ : ∃ sigs, sv = .array sigs := by
                cases sv <;> first | exact ⟨_, rfl⟩ | (simp [XValue.type] at ha)
              rw [List.cons_append, collectLoop_add _ _ _ _ _ _ _ _ _ hp hh hs,
                collectLoop_add _ _ _ _ _ _ _ _ _ hp hh hs, ih]
            · rw [List.cons_append, collectLoop_no_signature _ _ _ _ _ _ _ _ _ hp hh hs ha,
                collectLoop_no_signature _ _ _ _ _ _ _ _ _ hp hh hs ha, ih]
      · rw [List.cons_append, collectLoop_passes_over _ _ _ _ _ _ _ hp,
          collectLoop_passes_over _ _ _ _ _ _ _ hp, ih]
    · rw [List.cons_append, collectLoop_not_string _ _ _ _ _ _ _ hv,
        collectLoop_not_string _ _ _ _ _ _ _ hv]

/-! ## The loop when every query is answered -/

/-- With every query of a matching name answered, the loop over the names
ends well: the expected descriptors are appended to the model, the expected
warnings to `cerr`, the expected queries to the network trace. -/
theorem collectLoop_answered (sys : SystemProxy) (url cp : String)
    (helpOf : String → String) (sigOf : String → XValue) (names : List String)
    (hhelp : ∀ n ∈ names, (splitMethodName n).1 = cp → sys.methodHelp url n = .ok (helpOf n))
    (hsig : ∀ n ∈ names, (splitMethodName n).1 = cp →
      sys.methodSignature url n = .ok (sigOf n))
    (cls : ProxyClass) (w : World) :
    collectLoop sys url cp (names.map .string) cls w =
      (.ok ⟨cls.className, cls.functions ++ expectedMethods cp helpOf sigOf names⟩,
        ⟨w.cout, w.cerr ++ expectedWarnings cp sigOf names, w.other,
          w.net ++ expectedQueries url cp names⟩) := by
  induction names generalizing cls w with
  | nil => simp [collectLoop, expectedMethods, expectedWarnings, expectedQueries]
  | cons n rest ih =>
    have ih2 := ih (fun m hm => hhelp m (List.mem_cons_of_mem _ hm))
      (fun m hm => hsig m (List.mem_cons_of_mem _ hm))
    rw [List.map_cons]
    by_cases hp : (splitMethodName n).1 = cp
    · have hh := hhelp n (List.mem_cons_self _ _) hp
      have hs := hsig n (List.mem_cons_self _ _) hp
      by_cases ha : (sigOf n).type = .TYPE_ARRAY
      · obtain ⟨sigs, hsv⟩ : ∃ sigs, sigOf n = .array sigs := by
          cases hv : sigOf n <;> first | exact ⟨_, rfl⟩ | (simp [hv, XValue.type] at ha)
        rw [hsv] at hs
        rw [collectLoop_add _ _ _ _ _ _ _ _ _ hp hh hs, ih2]
        simp [expectedMethods, descriptorFor, expectedWarnings, expectedQueries, hp, hsv,
          XValue.type, ProxyClass.addFunction, World.query]
      · rw [collectLoop_no_signature _ _ _ _ _ _ _ _ _ hp hh hs ha, ih2]
        have hd : descriptorFor cp helpOf sigOf n = none := by
          unfold descriptorFor
          rw [if_pos hp]
          cases hv : sigOf n <;> first | rfl | (simp [hv, XValue.type] at ha)
        simp [expectedMethods, hd, expectedWarnings, expectedQueries, hp, ha,
          World.query, World.write, String.append_assoc]
    · rw [collectLoop_passes_over _ _ _ _ _ _ _ hp, ih2]
      have hd : descriptorFor cp helpOf sigOf n = none := by
        unfold descriptorFor
        rw [if_neg hp]
      simp [expectedMethods, hd, expectedWarnings, expectedQueries, hp]

/-- The whole of `getClassInfo` when the list is an array of names shorter
than `2 ^ 32` and every query of a matching name is answered. -/
theorem getClassInfo_answered (sys : SystemProxy) (url cp className : String)
    (helpOf : String → String) (sigOf : String → XValue) (names : List String)
    (hsmall : names.length < 2 ^ 32)
    (hlist : sys.listMethods url = .ok (.array (names.map .string)))
    (hhelp : ∀ n ∈ names, (splitMethodName n).1 = cp → sys.methodHelp url n = .ok (helpOf n))
    (hsig : ∀ n ∈ names, (splitMethodName n).1 = cp →
      sys.methodSignature url n = .ok (sigOf n))
    (w : World) :
    getClassInfo sys url cp className w =
      (.ok ⟨className, expectedMethods cp helpOf sigOf names⟩,
        ⟨w.cout, w.cerr ++ expectedWarnings cp sigOf names, w.other,
          w.net ++ Query.listMethods url :: expectedQueries url cp names⟩) := by
  unfold getClassInfo
  simp only [hlist, toValueArray, List.length_map, Nat.mod_eq_of_lt hsmall]
  rw [← List.length_map names XValue.string, List.take_length,
    collectLoop_answered sys url cp helpOf sigOf names hhelp hsig]
  simp [World.query]

/-! ## C1: the collected model -/

/-- C1: when `listMethods` answers with a sequence of names (shorter than
`2 ^ 32`, the range of the loop bound) and no query of a matching name fails,
`getClassInfo` returns the model with the given class name whose methods are,
in the order of the list and with duplicates kept, one descriptor (local
name, remote name, help, signature array) for each listed name whose prefix
equals the filter and whose signature result is an array. -/
theorem getClassInfo_model (sys : SystemProxy) (url cp className : String)
    (helpOf : String → String) (sigOf : String → XValue) (names : List String)
    (w : World)
    (hsmall : names.length < 2 ^ 32)
    (hlist : sys.listMethods url = .ok (.array (names.map .string)))
    (hhelp : ∀ n ∈ names, (splitMethodName n).1 = cp → sys.methodHelp url n = .ok (helpOf n))
    (hsig : ∀ n ∈ names, (splitMethodName n).1 = cp →
      sys.methodSignature url n = .ok (sigOf n)) :
    (getClassInfo sys url cp className w).1 =
      .ok ⟨className,
        names.filterMap (fun n =>
          if (splitMethodName n).1 = cp then
            match sigOf n with
            | .array sigs => some ⟨(splitMethodName n).2, n, helpOf n, sigs⟩
            | _ => none
          else none)⟩ := by
  rw [getClassInfo_answered sys url cp className helpOf sigOf names hsmall hlist hhelp hsig]
  rfl

/-- C1 on the sample server: the names `system.listMethods`, `sample.add`,
`sample.echo` with filter `sample` give the single method `add`, remote name
`sample.add`. -/
theorem getClassInfo_model_sample :
    (getClassInfo sampleServer "http://localhost/RPC2" "sample" "SampleProxy"
        World.initial).1 =
      .ok ⟨"SampleProxy",
        [⟨"add", "sample.add", "adds two ints",
          [.array [.string "int", .string "int", .string "int"]]⟩]⟩ :=
  (getClassInfo_model sampleServer "http://localhost/RPC2" "sample" "SampleProxy"
    sampleHelp sampleSig ["system.listMethods", "sample.add", "sample.echo"]
    World.initial (by decide) rfl (fun _ _ _ => rfl) (fun _ _ _ => rfl)).trans rfl

/-! ## Where the methods of the model come from -/

/-- Whatever the server answers, a method in the model after the loop was
there before or stems from a visited name: its prefix is the filter, its
local name is the rest of the name, and its help and signature array are what
the server answered for that name. -/
theorem collectLoop_origin (sys : SystemProxy) (url cp : String) (vs : List XValue)
    (cls : ProxyClass) (w : World) (cls' : ProxyClass) (w' : World)
    (h : collectLoop sys url cp vs cls w = (.ok cls', w')) :
    cls'.className = cls.className ∧
    ∀ m ∈ cls'.functions, m ∈ cls.functions ∨
      ((splitMethodName m.methodName).1 = cp ∧
        m.functionName = (splitMethodName m.methodName).2 ∧
        XValue.string m.methodName ∈ vs ∧
        sys.methodHelp url m.methodName = .ok m.help ∧
        sys.methodSignature url m.methodName = .ok (.array m.synopsis)) := by
  induction vs generalizing cls w with
  | nil =>
    simp only [collectLoop, Prod.mk.injEq, Except.ok.injEq] at h
    obtain ⟨rfl, -⟩ := h
    exact ⟨rfl, fun m hm => Or.inl hm⟩
  | cons v rest ih =>
    by_cases hv : v.type = .TYPE_STRING
    · obtain ⟨n, rfl⟩ : ∃ n, v = .string n := by
        cases v <;> first | exact ⟨_, rfl⟩ | (simp [XValue.type] at hv)
      by_cases hp : (splitMethodName n).1 = cp
      · cases hh : sys.methodHelp url n with
        | error e =>
          rw [collectLoop_help_error _ _ _ _ _ _ _ e hp hh] at h
          simp at h
        | ok help =>
          cases hs : sys.methodSignature url n with
          | error e =>
            rw [collectLoop_sig_error _ _ _ _ _ _ _ _ e hp hh hs] at h
            simp at h
          | ok sv =>
            by_cases ha : sv.type = .TYPE_ARRAY
            · obtain ⟨sigs, rfl⟩ : ∃ sigs, sv = .array sigs := by
                cases sv <;> first | exact ⟨_, rfl⟩ | (simp [XValue.type] at ha)
              rw [collectLoop_add _ _ _ _ _ _ _ _ _ hp hh hs] at h
              obtain ⟨h1, h2⟩ := ih _ _ h
              refine ⟨h1, fun m hm => ?_⟩
              rcases h2 m hm with h3 | ⟨h3, h4, h5, h6⟩
              · simp only [ProxyClass.addFunction, List.mem_append,
                  List.mem_singleton] at h3
                rcases h3 with h3 | rfl
                · exact Or.inl h3
                · exact Or.inr ⟨hp, rfl, List.mem_cons_self _ _, hh, hs⟩
              · exact Or.inr ⟨h3, h4, List.mem_cons_of_mem _ h5, h6⟩
            · rw [collectLoop_no_signature _ _ _ _ _ _ _ _ _ hp hh hs ha] at h
              obtain ⟨h1, h2⟩ := ih _ _ h
              refine ⟨h1, fun m hm => ?_⟩
              rcases h2 m hm with h3 | ⟨h3, h4, h5, h6⟩
              · exact Or.inl h3
              · exact Or.inr ⟨h3, h4, List.mem_cons_of_mem _ h5, h6⟩
      · rw [collectLoop_passes_over _ _ _ _ _ _ _ hp] at h
        obtain ⟨h1, h2⟩ := ih _ _ h
        refine ⟨h1, fun m hm => ?_⟩
        rcases h2 m hm with h3 | ⟨h3, h4, h5, h6⟩
        · exact Or.inl h3
        · exact Or.inr ⟨h3, h4, List.mem_cons_of_mem _ h5, h6⟩
    · rw [collectLoop_not_string _ _ _ _ _ _ _ hv] at h
      simp at h

/-- Whatever the server answers, every method of a model returned by
`getClassInfo` stems from a name of the list whose prefix is the filter. -/
theorem getClassInfo_origin (sys : SystemProxy) (url cp className : String) (w : World)
    (cls : ProxyClass) (h : (getClassInfo sys url cp className w).1 = .ok cls) :
    cls.className = className ∧
    ∀ m ∈ cls.functions,
      (splitMethodName m.methodName).1 = cp ∧
        m.functionName = (splitMethodName m.methodName).2 ∧
        sys.methodHelp url m.methodName = .ok m.help ∧
        sys.methodSignature url m.methodName = .ok (.array m.synopsis) := by
  unfold getClassInfo at h
  cases hl : sys.listMethods url with
  | error e => simp [hl] at h
  | ok r =>
    cases hr : toValueArray sys r with
    | error e => simp [hl, hr] at h
    | ok methods =>
      simp only [hl, hr] at h
      obtain ⟨h1, h2⟩ := collectLoop_origin sys url cp _ _ _ cls _ (Prod.ext h rfl)
      refine ⟨h1, fun m hm => ?_⟩
      rcases h2 m hm with h3 | ⟨h3, h4, -, h6⟩
      · simp at h3
      · exact ⟨h3, h4, h6⟩

/-- Two facades that agree on the conversion error and on the help and
signature of every name with the filter prefix run the loop alike. -/
theorem collectLoop_congr (sys sys' : SystemProxy) (url cp : String)
    (hc : sys'.castWhat = sys.castWhat)
    (hhelp : ∀ n, (splitMethodName n).1 = cp → sys'.methodHelp url n = sys.methodHelp url n)
    (hsig : ∀ n, (splitMethodName n).1 = cp →
      sys'.methodSignature url n = sys.methodSignature url n)
    (vs : List XValue) (cls : ProxyClass) (w : World) :
    collectLoop sys' url cp vs cls w = collectLoop sys url cp vs cls w := by
  induction vs generalizing cls w with
  | nil => rfl
  | cons v rest ih =>
    by_cases hv : v.type = .TYPE_STRING
    · obtain ⟨n, rfl⟩ : ∃ n, v = .string n := by
        cases v <;> first | exact ⟨_, rfl⟩ | (simp [XValue.type] at hv)
      by_cases hp : (splitMethodName n).1 = cp
      · have e1 := hhelp n hp
        have e2 := hsig n hp
        cases hh : sys.methodHelp url n with
        | error e =>
          rw [collectLoop_help_error _ _ _ _ _ _ _ e hp hh,
            collectLoop_help_error _ _ _ _ _ _ _ e hp (e1.trans hh)]
        | ok help =>
          cases hs : sys.methodSignature url n with
          | error e =>
            rw [collectLoop_sig_error _ _ _ _ _ _ _ _ e hp hh hs,
              collectLoop_sig_error _ _ _ _ _ _ _ _ e hp (e1.trans hh) (e2.trans hs)]
          | ok sv =>
            by_cases ha : sv.type = .TYPE_ARRAY
            · obtain ⟨sigs, rfl⟩ : ∃ sigs, sv = .array sigs := by
                cases sv <;> first | exact ⟨_, rfl⟩ | (simp [XValue.type] at ha)
              rw [collectLoop_add _ _ _ _ _ _ _ _ _ hp hh hs,
                collectLoop_add _ _ _ _ _ _ _ _ _ hp (e1.trans hh) (e2.trans hs), ih]
            · rw [collectLoop_no_signature _ _ _ _ _ _ _ _ _ hp hh hs ha,
                collectLoop_no_signature _ _ _ _ _ _ _ _ _ hp (e1.trans hh) (e2.trans hs) ha,
                ih]
      · rw [collectLoop_passes_over _ _ _ _ _ _ _ hp,
          collectLoop_passes_over _ _ _ _ _ _ _ hp, ih]
    · rw [collectLoop_not_string _ _ _ _ _ _ _ hv, collectLoop_not_string _ _ _ _ _ _ _ hv, hc]

/-! ## C3: the signatures of the collected methods -/

/-- C3, as the code has it: whatever the server answers and whatever the
filter, every method of a model returned by `getClassInfo` carries the array
that `methodSignature` answered for its remote name; a name whose signature
result is not an array is never inserted.  The array may be empty. -/
theorem getClassInfo_signature_is_answer (sys : SystemProxy) (url cp className : String)
    (w : World) (cls : ProxyClass)
    (h : (getClassInfo sys url cp className w).1 = .ok cls) :
    ∀ m ∈ cls.functions,
      ∃ v, sys.methodSignature url m.methodName = .ok v ∧ v.type = .TYPE_ARRAY ∧
        v = .array m.synopsis := by
  intro m hm
  obtain ⟨-, -, -, h4⟩ := (getClassInfo_origin sys url cp className w cls h).2 m hm
  exact ⟨_, h4, rfl, rfl⟩

/-- C3 on the sample server: the one method of the model carries the array
the server answered for `sample.add`. -/
theorem getClassInfo_signature_is_answer_sample :
    ∃ v, sampleServer.methodSignature "http://localhost/RPC2" "sample.add" = .ok v ∧
      v.type = .TYPE_ARRAY ∧
      v = .array [.array [.string "int", .string "int", .string "int"]] :=
  getClassInfo_signature_is_answer sampleServer "http://localhost/RPC2" "sample"
    "SampleProxy" World.initial
    ⟨"SampleProxy", [⟨"add", "sample.add", "adds two ints",
      [.array [.string "int", .string "int", .string "int"]]⟩]⟩ rfl
    ⟨"add", "sample.add", "adds two ints",
      [.array [.string "int", .string "int", .string "int"]]⟩
    (List.mem_singleton.mpr rfl)

/-- C3 fails as stated: a server that answers `methodSignature` of `a.f`
with the empty array gets `a.f` into the model with an empty signature list. -/
theorem getClassInfo_empty_signature_list :
    (getClassInfo emptySigServer "http://localhost/RPC2" "a" "C" World.initial).1 =
        .ok ⟨"C", [⟨"f", "a.f", "", []⟩]⟩ ∧
      ¬ ∀ m ∈ ([⟨"f", "a.f", "", []⟩] : List XmlrpcMethod), m.synopsis ≠ [] :=
  ⟨rfl, fun h => h ⟨"f", "a.f", "", []⟩ (List.mem_singleton.mpr rfl) rfl⟩

/-! ## C4: names outside the filter -/

/-- C4: no method whose prefix differs from the filter is in a model returned
by `getClassInfo`, and the outcome of `getClassInfo` (the model or the
failure, the warnings, the queries sent) stays the same when the help and
signature answers of the names whose prefix differs from the filter are
replaced by anything else, faults included. -/
theorem getClassInfo_ignores_other_prefixes (sys : SystemProxy)
    (help' : String → String → Except Exc String)
    (sig' : String → String → Except Exc XValue)
    (url cp className : String) (w : World)
    (hhelp : ∀ n, (splitMethodName n).1 = cp → help' url n = sys.methodHelp url n)
    (hsig : ∀ n, (splitMethodName n).1 = cp → sig' url n = sys.methodSignature url n) :
    (∀ cls, (getClassInfo sys url cp className w).1 = .ok cls →
      ∀ m ∈ cls.functions, (splitMethodName m.methodName).1 = cp) ∧
    getClassInfo { sys with methodHelp := help', methodSignature := sig' } url cp className w
      = getClassInfo sys url cp className w := by
  refine ⟨fun cls h m hm => ((getClassInfo_origin sys url cp className w cls h).2 m hm).1, ?_⟩
  unfold getClassInfo
  cases hl : sys.listMethods url with
  | error e => simp
  | ok r =>
    cases r <;> simp only [toValueArray]
    exact collectLoop_congr sys { sys with methodHelp := help', methodSignature := sig' }
      url cp rfl hhelp hsig _ _ _

/-- C4 on the sample server: with filter `sample`, turning the help and
signature of `system.listMethods` into faults changes nothing. -/
theorem getClassInfo_ignores_other_prefixes_sample :
    getClassInfo faultySampleServer "http://localhost/RPC2" "sample" "SampleProxy"
        World.initial
      = getClassInfo sampleServer "http://localhost/RPC2" "sample" "SampleProxy"
        World.initial :=
  (getClassInfo_ignores_other_prefixes sampleServer faultySampleServer.methodHelp
    faultySampleServer.methodSignature "http://localhost/RPC2" "sample" "SampleProxy"
    World.initial
    (fun n hn => by
      by_cases h : n = "system.listMethods"
      · subst h; exact absurd hn (by decide)
      · simp [faultySampleServer, h])
    (fun n hn => by
      by_cases h : n = "system.listMethods"
      · subst h; exact absurd hn (by decide)
      · simp [faultySampleServer, h])).2

/-! ## C5: a method without signature -/

/-- The warning names the method. -/
theorem occursIn_skipWarning (n : String) : occursIn n (skipWarning n) := by
  unfold occursIn skipWarning
  simp only [String.data_append, List.append_assoc]
  exact ⟨_, _, by simp only [List.append_assoc]; rfl⟩

/-- C5: let the list (shorter than `2 ^ 32`) hold the name `n` after the
elements `pre` and before the elements `post`, let the prefix of `n` be the
filter, and let `methodSignature` answer for `n` with a value that is not an
array.  If the loop has come through `pre` with the model `cls1`, then
`getClassInfo` goes on through `post` with the same model `cls1`, the two
queries for `n` sent and exactly one warning, which names `n`, appended to
`cerr`: the name is left out and is no failure. -/
theorem getClassInfo_skips_unspecified (sys : SystemProxy) (url cp className n help : String)
    (v : XValue) (pre post : List XValue) (w : World) (cls1 : ProxyClass) (w1 : World)
    (hsmall : (pre ++ XValue.string n :: post).length < 2 ^ 32)
    (hlist : sys.listMethods url = .ok (.array (pre ++ XValue.string n :: post)))
    (hpre : collectLoop sys url cp pre ⟨className, []⟩ (w.query (.listMethods url))
      = (.ok cls1, w1))
    (hp : (splitMethodName n).1 = cp)
    (hh : sys.methodHelp url n = .ok help)
    (hs : sys.methodSignature url n = .ok v)
    (hv : v.type ≠ .TYPE_ARRAY) :
    getClassInfo sys url cp className w =
        collectLoop sys url cp post cls1
          ⟨w1.cout, w1.cerr ++ skipWarning n, w1.other,
            w1.net ++ [Query.methodHelp url n, Query.methodSignature url n]⟩ ∧
      occursIn n (skipWarning n) := by
  refine ⟨?_, occursIn_skipWarning n⟩
  unfold getClassInfo
  simp only [hlist, toValueArray, Nat.mod_eq_of_lt hsmall, List.take_length]
  rw [collectLoop_append, hpre]
  simp only
  rw [collectLoop_no_signature _ _ _ _ _ _ _ _ _ hp hh hs hv]
  simp [World.query, World.write]

/-- C5 on the sample server: `sample.echo` is left out with one warning,
after `sample.add` was taken in, and `getClassInfo` ends well. -/
theorem getClassInfo_skips_unspecified_sample :
    getClassInfo sampleServer "http://localhost/RPC2" "sample" "SampleProxy" World.initial =
      (.ok ⟨"SampleProxy", [⟨"add", "sample.add", "adds two ints",
          [.array [.string "int", .string "int", .string "int"]]⟩]⟩,
        ⟨"", "Skipping method sample.echo because server does not report any signatures "
            ++ "for it (via system.methodSignature method)\n", "",
          [.listMethods "http://localhost/RPC2",
            .methodHelp "http://localhost/RPC2" "sample.add",
            .methodSignature "http://localhost/RPC2" "sample.add",
            .methodHelp "http://localhost/RPC2" "sample.echo",
            .methodSignature "http://localhost/RPC2" "sample.echo"]⟩) :=
  (getClassInfo_skips_unspecified sampleServer "http://localhost/RPC2" "sample" "SampleProxy"
    "sample.echo" "" (.string "undef")
    [.string "system.listMethods", .string "sample.add"] [] World.initial
    ⟨"SampleProxy", [⟨"add", "sample.add", "adds two ints",
      [.array [.string "int", .string "int", .string "int"]]⟩]⟩
    ⟨"", "", "", [.listMethods "http://localhost/RPC2",
      .methodHelp "http://localhost/RPC2" "sample.add",
      .methodSignature "http://localhost/RPC2" "sample.add"]⟩
    (by decide) rfl rfl (by decide) rfl rfl (by decide)).1.trans rfl

/-! ## C6: the empty filter -/

/-- The prefix of a name is empty exactly when no `'.'` occurs after the
first character of the name. -/
theorem splitMethodName_fst_eq_empty (n : String) :
    (splitMethodName n).1 = "" ↔ '.' ∉ n.data.tail := by
  by_cases hd : '.' ∈ n.data
  · obtain ⟨k, -, h1, h2, h3⟩ := splitMethodName_of_mem n hd
    rw [h1]
    cases hn : n.data with
    | nil => rw [hn] at hd; simp at hd
    | cons x xs =>
      rw [hn] at h2 h3
      cases k with
      | zero =>
        simp only [List.take_zero, List.tail_cons]
        simp only [zero_add, List.drop_succ_cons, List.drop_zero] at h3
        exact ⟨fun _ => h3, fun _ => trivial⟩
      | succ j =>
        simp only [List.take_succ_cons, List.drop_succ_cons, List.cons_append,
          List.cons.injEq, true_and] at h2
        simp only [List.take_succ_cons, List.tail_cons]
        constructor
        · intro h
          have := congrArg String.data h
          simp at this
        · intro h
          exfalso
          apply h
          rw [h2]
          simp
  · rw [splitMethodName_of_not_mem n hd]
    exact ⟨fun _ h => hd (List.mem_of_mem_tail h), fun _ => rfl⟩

/-- The loop never removes a method from the model. -/
theorem collectLoop_mono (sys : SystemProxy) (url cp : String) (vs : List XValue)
    (cls : ProxyClass) (w : World) (cls' : ProxyClass) (w' : World)
    (h : collectLoop sys url cp vs cls w = (.ok cls', w')) :
    ∀ m ∈ cls.functions, m ∈ cls'.functions := by
  induction vs generalizing cls w with
  | nil =>
    simp only [collectLoop, Prod.mk.injEq, Except.ok.injEq] at h
    obtain ⟨rfl, -⟩ := h
    exact fun m hm => hm
  | cons v rest ih =>
    by_cases hv : v.type = .TYPE_STRING
    · obtain ⟨n, rfl⟩ : ∃ n, v = .string n := by
        cases v <;> first | exact ⟨_, rfl⟩ | (simp [XValue.type] at hv)
      by_cases hp : (splitMethodName n).1 = cp
      · cases hh : sys.methodHelp url n with
        | error e =>
          rw [collectLoop_help_error _ _ _ _ _ _ _ e hp hh] at h
          simp at h
        | ok help =>
          cases hs : sys.methodSignature url n with
          | error e =>
            rw [collectLoop_sig_error _ _ _ _ _ _ _ _ e hp hh hs] at h
            simp at h
          | ok sv =>
            by_cases ha : sv.type = .TYPE_ARRAY
            · obtain ⟨sigs, rfl⟩ : ∃ sigs, sv = .array sigs := by
                cases sv <;> first | exact ⟨_, rfl⟩ | (simp [XValue.type] at ha)
              rw [collectLoop_add _ _ _ _ _ _ _ _ _ hp hh hs] at h
              intro m hm
              exact ih _ _ h m (by simp [ProxyClass.addFunction, hm])
            · rw [collectLoop_no_signature _ _ _ _ _ _ _ _ _ hp hh hs ha] at h
              exact ih _ _ h
      · rw [collectLoop_passes_over _ _ _ _ _ _ _ hp] at h
        exact ih _ _ h
    · rw [collectLoop_not_string _ _ _ _ _ _ _ hv] at h
      simp at h

/-- If the loop ends well, every visited name whose prefix is the filter and
whose signature answer is an array has a method in the model. -/
theorem collectLoop_keeps (sys : SystemProxy) (url cp : String) (vs : List XValue)
    (cls : ProxyClass) (w : World) (cls' : ProxyClass) (w' : World)
    (h : collectLoop sys url cp vs cls w = (.ok cls', w'))
    (n : String) (hn : XValue.string n ∈ vs) (hp : (splitMethodName n).1 = cp)
    (sigs : List XValue) (hs : sys.methodSignature url n = .ok (.array sigs)) :
    ∃ m ∈ cls'.functions, m.methodName = n := by
  induction vs generalizing cls w with
  | nil => simp at hn
  | cons v rest ih =>
    by_cases hv : v.type = .TYPE_STRING
    · obtain ⟨n', rfl⟩ : ∃ n', v = .string n' := by
        cases v <;> first | exact ⟨_, rfl⟩ | (simp [XValue.type] at hv)
      by_cases hn' : n' = n
      · subst hn'
        cases hh : sys.methodHelp url n' with
        | error e =>
          rw [collectLoop_help_error _ _ _ _ _ _ _ e hp hh] at h
          simp at h
        | ok help =>
          rw [collectLoop_add _ _ _ _ _ _ _ _ _ hp hh hs] at h
          exact ⟨⟨(splitMethodName n').2, n', help, sigs⟩,
            collectLoop_mono _ _ _ _ _ _ _ _ h _ (by simp [ProxyClass.addFunction]), rfl⟩
      · have hn2 : XValue.string n ∈ rest := by
          rcases List.mem_cons.mp hn with h1 | h1
          · exact absurd (XValue.string.inj h1).symm hn'
          · exact h1
        by_cases hp' : (splitMethodName n').1 = cp
        · cases hh : sys.methodHelp url n' with
          | error e =>
            rw [collectLoop_help_error _ _ _ _ _ _ _ e hp' hh] at h
            simp at h
          | ok help =>
            cases hs' : sys.methodSignature url n' with
            | error e =>
              rw [collectLoop_sig_error _ _ _ _ _ _ _ _ e hp' hh hs'] at h
              simp at h
            | ok sv =>
              by_cases ha : sv.type = .TYPE_ARRAY
              · obtain ⟨sigs', rfl⟩ : ∃ sigs', sv = .array sigs' := by
                  cases sv <;> first | exact ⟨_, rfl⟩ | (simp [XValue.type] at ha)
                rw [collectLoop_add _ _ _ _ _ _ _ _ _ hp' hh hs'] at h
                exact ih _ _ h hn2
              · rw [collectLoop_no_signature _ _ _ _ _ _ _ _ _ hp' hh hs' ha] at h
                exact ih _ _ h hn2
        · rw [collectLoop_passes_over _ _ _ _ _ _ _ hp'] at h
          exact ih _ _ h hn2
    · rw [collectLoop_not_string _ _ _ _ _ _ _ hv] at h
      simp at h

/-- C6, as the code has it: with the empty filter, a name of the list
(shorter than `2 ^ 32`) whose signature answer is an array has a method in
the model returned by `getClassInfo` if and only if no `'.'` occurs after the
first character of the name. -/
theorem getClassInfo_empty_filter (sys : SystemProxy) (url className : String)
    (w : World) (methods : List XValue) (cls : ProxyClass) (n : String)
    (sigs : List XValue)
    (hsmall : methods.length < 2 ^ 32)
    (hlist : sys.listMethods url = .ok (.array methods))
    (hok : (getClassInfo sys url "" className w).1 = .ok cls)
    (hn : XValue.string n ∈ methods)
    (hs : sys.methodSignature url n = .ok (.array sigs)) :
    (∃ m ∈ cls.functions, m.methodName = n) ↔ '.' ∉ n.data.tail := by
  rw [← splitMethodName_fst_eq_empty]
  constructor
  · rintro ⟨m, hm, rfl⟩
    exact ((getClassInfo_origin sys url "" className w cls hok).2 m hm).1
  · intro hp
    unfold getClassInfo at hok
    simp only [hlist, toValueArray, Nat.mod_eq_of_lt hsmall, List.take_length] at hok
    exact collectLoop_keeps sys url "" methods _ _ cls _ (Prod.ext hok rfl) n hn hp sigs hs

/-- C6 on a server that lists `ping` and `sample.add`: with the empty filter
the model holds `ping`, which has no `'.'`. -/
theorem getClassInfo_empty_filter_plain :
    (∃ m ∈ ([⟨"ping", "ping", "", [.array [.string "int"]]⟩] : List XmlrpcMethod),
        m.methodName = "ping") ↔
      '.' ∉ "ping".data.tail :=
  getClassInfo_empty_filter plainServer "http://localhost/RPC2" "SampleProxy"
    World.initial [.string "ping", .string "sample.add"]
    ⟨"SampleProxy", [⟨"ping", "ping", "", [.array [.string "int"]]⟩]⟩ "ping"
    [.array [.string "int"]]
    (by decide) rfl rfl (by simp) rfl

/-- C6 fails as stated: with the empty filter the name `.foo`, which has a
`'.'`, is taken into the model, its prefix being empty. -/
theorem leading_dot_kept_by_empty_filter :
    '.' ∈ ".foo".data ∧
      (getClassInfo dotServer "http://localhost/RPC2" "" "C" World.initial).1 =
        .ok ⟨"C", [⟨"foo", ".foo", "", [.array [.string "int"]]⟩]⟩ :=
  ⟨by decide, rfl⟩

/-! ## What the collection leaves untouched -/

/-- The loop writes neither to `cout` nor to any other stream than `cerr`. -/
theorem collectLoop_frame (sys : SystemProxy) (url cp : String) (vs : List XValue)
    (cls : ProxyClass) (w : World) :
    (collectLoop sys url cp vs cls w).2.cout = w.cout ∧
      (collectLoop sys url cp vs cls w).2.other = w.other := by
  induction vs generalizing cls w with
  | nil => exact ⟨rfl, rfl⟩
  | cons v rest ih =>
    by_cases hv : v.type = .TYPE_STRING
    · obtain ⟨n, rfl⟩ : ∃ n, v = .string n := by
        cases v <;> first | exact ⟨_, rfl⟩ | (simp [XValue.type] at hv)
      by_cases hp : (splitMethodName n).1 = cp
      · cases hh : sys.methodHelp url n with
        | error e =>
          rw [collectLoop_help_error _ _ _ _ _ _ _ e hp hh]
          exact ⟨rfl, rfl⟩
        | ok help =>
          cases hs : sys.methodSignature url n with
          | error e =>
            rw [collectLoop_sig_error _ _ _ _ _ _ _ _ e hp hh hs]
            exact ⟨rfl, rfl⟩
          | ok sv =>
            by_cases ha : sv.type = .TYPE_ARRAY
            · obtain ⟨sigs, rfl⟩ : ∃ sigs, sv = .array sigs := by
                cases sv <;> first | exact ⟨_, rfl⟩ | (simp [XValue.type] at ha)
              rw [collectLoop_add _ _ _ _ _ _ _ _ _ hp hh hs]
              exact ih _ _
            · rw [collectLoop_no_signature _ _ _ _ _ _ _ _ _ hp hh hs ha]
              exact ih _ _
      · rw [collectLoop_passes_over _ _ _ _ _ _ _ hp]
        exact ih _ _
    · rw [collectLoop_not_string _ _ _ _ _ _ _ hv]
      exact ⟨rfl, rfl⟩

/-- `getClassInfo` writes neither to `cout` nor to any other stream than
`cerr`. -/
theorem getClassInfo_frame (sys : SystemProxy) (url cp className : String) (w : World) :
    (getClassInfo sys url cp className w).2.cout = w.cout ∧
      (getClassInfo sys url cp className w).2.other = w.other := by
  unfold getClassInfo
  cases hl : sys.listMethods url with
  | error e => exact ⟨rfl, rfl⟩
  | ok r =>
    cases hr : toValueArray sys r with
    | error e => simp only [hr]; exact ⟨rfl, rfl⟩
    | ok methods =>
      simp only [hr]
      have h := collectLoop_frame sys url cp (methods.take (methods.length % 2 ^ 32))
        ⟨className, []⟩ (w.query (.listMethods url))
      exact h

/-! ## The printing functions -/

/-- What `printHeader` does when the declarations are rendered well. -/
theorem printHeader_ok (r : Renderers) (out : Sink) (c : ProxyClass) (w : World)
    (h : (r.printDeclaration c).2 = none) :
    printHeader r out c w =
      (.ok (), (((w.write out (headerProlog c.className)).write .cout
        (r.printDeclaration c).1).write out (headerEpilog c.className))) := by
  simp [printHeader, h]

/-- `printHeader` ends well only if the rendering of the declarations does. -/
theorem printHeader_ok_inv (r : Renderers) (out : Sink) (c : ProxyClass) (w : World)
    (h : (printHeader r out c w).1 = .ok ()) : (r.printDeclaration c).2 = none := by
  unfold printHeader at h
  cases hd : (r.printDeclaration c).2 with
  | none => rfl
  | some e => cases e <;> simp [hd] at h

/-- What `printCppFile` does when the definitions are rendered well. -/
theorem printCppFile_ok (r : Renderers) (out : Sink) (c : ProxyClass) (w : World)
    (h : (r.printDefinition c).2 = none) :
    printCppFile r out c w =
      (.ok (), ((w.write out (cppProlog c.className)).write .cout (r.printDefinition c).1)) := by
  simp [printCppFile, h]

/-- `printCppFile` ends well only if the rendering of the definitions does. -/
theorem printCppFile_ok_inv (r : Renderers) (out : Sink) (c : ProxyClass) (w : World)
    (h : (printCppFile r out c w).1 = .ok ()) : (r.printDefinition c).2 = none := by
  unfold printCppFile at h
  cases hd : (r.printDefinition c).2 with
  | none => rfl
  | some e => cases e <;> simp [hd] at h

/-- With exactly three arguments `main` passes them to the `try` block. -/
theorem main_three_args (sys : SystemProxy) (r : Renderers)
    (myName url cp className : String) (w : World) :
    main sys r myName [url, cp, className] w =
      match mainBody sys r ⟨url, cp, className⟩ w with
      | (.ok _, w2) => (0, w2)
      | (.error (.fault code description), w2) =>
        (1, w2.write .cerr (myName ++ ": XML-RPC fault #" ++ toString code
          ++ ": " ++ description ++ endl))
      | (.error (.error what), w2) => (1, w2.write .cerr (myName ++ ": " ++ what ++ endl))
      | (.error .unknown, w2) =>
        (1, w2.write .cerr (myName ++ ": Unknown exception" ++ endl)) := by
  simp [main, cmdlineInfo]

/-! ## Occurrence of a text in a longer one -/

/-- A text occurs in itself. -/
theorem occursIn_self (n : String) : occursIn n n := List.infix_refl _

/-- What occurs in a text occurs in it with more text after. -/
theorem occursIn_append_left (n a b : String) (h : occursIn n a) : occursIn n (a ++ b) := by
  obtain ⟨s, t, e⟩ := h
  exact ⟨s, t ++ b.data, by simp [String.data_append, ← e]⟩

/-- What occurs in a text occurs in it with more text before. -/
theorem occursIn_append_right (n a b : String) (h : occursIn n b) : occursIn n (a ++ b) := by
  obtain ⟨s, t, e⟩ := h
  exact ⟨a.data ++ s, t, by simp [String.data_append, ← e]⟩

/-! ## C8: the successful run -/

/-- C8: with exactly three arguments, when the collection and both
renderings end well, `main` returns 0 and the text it has written to standard
output is the declaration block of `printHeader`, then one empty line, then
the definition block of `printCppFile`. -/
theorem main_success (sys : SystemProxy) (r : Renderers)
    (myName url cp className : String) (w : World) (c : ProxyClass) (w1 : World)
    (hcollect : getClassInfo sys url cp className w = (.ok c, w1))
    (hdecl : (printHeader r .cout c w1).1 = .ok ())
    (hdef : (printCppFile r .cout c ((printHeader r .cout c w1).2.write .cout endl)).1
      = .ok ()) :
    (main sys r myName [url, cp, className] w).1 = 0 ∧
      (main sys r myName [url, cp, className] w).2.cout =
        w.cout ++ (printHeader r .cout c World.initial).2.cout ++ endl
          ++ (printCppFile r .cout c World.initial).2.cout := by
  have hd := printHeader_ok_inv r .cout c w1 hdecl
  have hf := printCppFile_ok_inv r .cout c _ hdef
  have hw : w1.cout = w.cout := by
    have := (getClassInfo_frame sys url cp className w).1
    rw [hcollect] at this
    exact this
  rw [main_three_args]
  simp only [mainBody, hcollect, printHeader_ok r _ c _ hd, printCppFile_ok r _ c _ hf]
  simp [World.write, World.initial, String.append_assoc, hw]

set_option maxRecDepth 100000 in
/-- C8 on the sample server with renderers that end well. -/
theorem main_success_sample :
    (main sampleServer sampleRenderers "xmlrpc_cpp_proxy"
        ["http://localhost/RPC2", "sample", "SampleProxy"] World.initial).1 = 0 ∧
      (main sampleServer sampleRenderers "xmlrpc_cpp_proxy"
        ["http://localhost/RPC2", "sample", "SampleProxy"] World.initial).2.cout =
        "// Interface definition for SampleProxy class, an XML-RPC FOR C/C++ proxy class\n"
          ++ "// Generated by 'xmlrpc_cpp_proxy'\n"
          ++ "\n"
          ++ "#ifndef _SampleProxy_H_\n"
          ++ "#define _SampleProxy_H_ 1\n"
          ++ "\n"
          ++ "#include <string>\n"
          ++ "#include <xmlrpc-c/client_simple.hpp>\n"
          ++ "\n"
          ++ "class SampleProxy;\n"
          ++ "\n"
          ++ "#endif /* _SampleProxy_H_ */\n"
          ++ "\n"
          ++ "// SampleProxy - an XML-RPC FOR C/C++ proxy class\n"
          ++ "// Generated by 'xmlrpc_cpp_proxy'\n"
          ++ "\n"
          ++ "#include \"SampleProxy.h\"\n"
          ++ "// methods of SampleProxy\n" :=
  ⟨(main_success sampleServer sampleRenderers "xmlrpc_cpp_proxy" "http://localhost/RPC2"
      "sample" "SampleProxy" World.initial _ _ rfl rfl rfl).1,
    (main_success sampleServer sampleRenderers "xmlrpc_cpp_proxy" "http://localhost/RPC2"
      "sample" "SampleProxy" World.initial _ _ rfl rfl rfl).2.trans rfl⟩

/-! ## C9: the command line -/

/-- C9: the constructor `cmdlineInfo` ends well exactly when three arguments
follow the program name, and then holds them unchanged; with any other number
of arguments `main` ends with exit code 1, having written the usage message
to `cerr` and nothing else: no remote query is sent. -/
theorem cmdlineInfo_spec (sys : SystemProxy) (r : Renderers) (myName : String)
    (args : List String) (w : World) :
    ((∃ c, (cmdlineInfo ((myName :: args).length) (myName :: args) w).1 = .ok c)
      ↔ args.length = 3) ∧
    (∀ a b c, args = [a, b, c] →
      cmdlineInfo ((myName :: args).length) (myName :: args) w = (.ok ⟨a, b, c⟩, w)) ∧
    (args.length ≠ 3 →
      main sys r myName args w =
        (1, ⟨w.cout, w.cerr ++ usageMessage ((myName :: args).length), w.other, w.net⟩)) := by
  have hiff : ((myName :: args).length : Int) - 1 ≠ 3 ↔ args.length ≠ 3 := by
    simp only [List.length_cons, Nat.cast_add, Nat.cast_one]
    omega
  refine ⟨?_, ?_, ?_⟩
  · by_cases h : args.length = 3
    · have h' : ¬ ((myName :: args).length : Int) - 1 ≠ 3 := fun hc => hiff.mp hc h
      simp only [cmdlineInfo, if_neg h', h, iff_true]
      exact ⟨_, rfl⟩
    · have h' : ((myName :: args).length : Int) - 1 ≠ 3 := hiff.mpr h
      simp only [cmdlineInfo, if_pos h', h, iff_false]
      rintro ⟨c, hc⟩
      cases hc
  · rintro a b c rfl
    simp [cmdlineInfo]
  · intro h
    have h' : ((myName :: args).length : Int) - 1 ≠ 3 := hiff.mpr h
    simp only [main, cmdlineInfo, if_pos h', World.write]

set_option maxRecDepth 100000 in
/-- C9 on two command lines: three arguments are taken as they are; with one
argument the run ends with exit code 1 and the usage message. -/
theorem cmdlineInfo_spec_sample :
    cmdlineInfo 4 ["xmlrpc_cpp_proxy", "http://localhost/RPC2", "system", "systemProxy"]
        World.initial =
      (.ok ⟨"http://localhost/RPC2", "system", "systemProxy"⟩, World.initial) ∧
    main sampleServer sampleRenderers "xmlrpc_cpp_proxy" ["http://localhost/RPC2"]
        World.initial =
      (1, ⟨"",
        "There are 3 arguments: server URL, "
          ++ "prefix for the methods to include (null to include all), "
          ++ "and name to give the generated proxy class.  "
          ++ "You specified 1 arguments.\n"
          ++ "Example:  xmlrpc_cpp_proxy http://localhost/RPC2 system systemProxy\n",
        "", []⟩) :=
  ⟨(cmdlineInfo_spec sampleServer sampleRenderers "xmlrpc_cpp_proxy"
      ["http://localhost/RPC2", "system", "systemProxy"] World.initial).2.1 _ _ _ rfl,
    ((cmdlineInfo_spec sampleServer sampleRenderers "xmlrpc_cpp_proxy"
      ["http://localhost/RPC2"] World.initial).2.2 (by decide)).trans rfl⟩

/-! ## C7: remote faults -/

/-- The diagnostic of a fault holds its description, and its code unless the
fault was raised while the definitions were rendered. -/
theorem faultDiagnostic_occurs (myName className : String) (code : Int)
    (description : String) (stage : Stage) :
    occursIn description (faultDiagnostic myName className code description stage) ∧
      (stage ≠ .definition →
        occursIn (toString code) (faultDiagnostic myName className code description stage)) := by
  cases stage
  · refine ⟨?_, fun _ => ?_⟩
    · exact occursIn_append_left _ _ _ (occursIn_append_right _ _ _ (occursIn_self _))
    · exact occursIn_append_left _ _ _ (occursIn_append_left _ _ _
        (occursIn_append_left _ _ _ (occursIn_append_right _ _ _ (occursIn_self _))))
  · refine ⟨?_, fun _ => ?_⟩
    · exact occursIn_append_left _ _ _ (occursIn_append_right _ _ _ (occursIn_self _))
    · exact occursIn_append_left _ _ _ (occursIn_append_left _ _ _
        (occursIn_append_left _ _ _ (occursIn_append_right _ _ _ (occursIn_self _))))
  · refine ⟨?_, fun h => absurd rfl h⟩
    exact occursIn_append_left _ _ _ (occursIn_append_right _ _ _
      (occursIn_append_right _ _ _ (occursIn_self _)))

/-- C7, as the code has it: for every remote fault raised during a run with
three arguments, by a query of the collection or while the declarations or
the definitions are rendered, `main` returns 1 and appends to `cerr`, after
the warnings of the collection, one diagnostic that holds the description of
the fault.  The diagnostic is `<program>: XML-RPC fault #<code>: <description>`
and so holds the code too when the fault comes from the collection or from
the declarations; for a fault from the definitions it is `<program>: Failed
to generate definition for class <class>.  <description>`. -/
theorem main_fault (sys : SystemProxy) (r : Renderers)
    (myName url cp className : String) (w : World) (code : Int) (description : String)
    (stage : Stage)
    (h : faultRaised sys r url cp className w code description stage) :
    (main sys r myName [url, cp, className] w).1 = 1 ∧
      (main sys r myName [url, cp, className] w).2.cerr =
        (getClassInfo sys url cp className w).2.cerr
          ++ faultDiagnostic myName className code description stage ∧
      occursIn description (faultDiagnostic myName className code description stage) ∧
      (stage ≠ .definition →
        occursIn (toString code)
          (faultDiagnostic myName className code description stage)) := by
  refine ⟨?_, ?_, faultDiagnostic_occurs myName className code description stage⟩
  all_goals
    rw [main_three_args]
    unfold mainBody
    rcases hg : getClassInfo sys url cp className w with ⟨res, w1⟩
    cases stage
    · simp only [faultRaised, hg] at h
      subst h
      simp [World.write, faultDiagnostic]
    · simp only [faultRaised, hg] at h
      cases res with
      | error e => exact absurd h id
      | ok c =>
        simp only at h
        have hn := (getClassInfo_origin sys url cp className w c (by rw [hg])).1
        simp [printHeader, h, World.write, faultDiagnostic]
    · simp only [faultRaised, hg] at h
      cases res with
      | error e => exact absurd h id
      | ok c =>
        simp only at h
        have hn := (getClassInfo_origin sys url cp className w c (by rw [hg])).1
        simp [printHeader_ok r _ c _ h.1, printCppFile, h.2, World.write, faultDiagnostic,
          hn, String.append_assoc]

/-- C7 on a server that cannot be reached: the fault 3 of `listMethods` ends
the run with exit code 1 and a diagnostic with code and description. -/
theorem main_fault_down :
    (main downServer sampleRenderers "xmlrpc_cpp_proxy"
        ["http://localhost/RPC2", "sample", "SampleProxy"] World.initial).1 = 1 ∧
      (main downServer sampleRenderers "xmlrpc_cpp_proxy"
        ["http://localhost/RPC2", "sample", "SampleProxy"] World.initial).2.cerr =
        "xmlrpc_cpp_proxy: XML-RPC fault #3: connection refused\n" :=
  ⟨(main_fault downServer sampleRenderers "xmlrpc_cpp_proxy" "http://localhost/RPC2"
      "sample" "SampleProxy" World.initial 3 "connection refused" .collection rfl).1,
    (main_fault downServer sampleRenderers "xmlrpc_cpp_proxy" "http://localhost/RPC2"
      "sample" "SampleProxy" World.initial 3 "connection refused" .collection rfl).2.1.trans
      (by decide)⟩

set_option maxRecDepth 100000 in
/-- C7 fails as stated: when rendering the definitions raises the fault 42,
`boom`, the run ends with exit code 1 and a diagnostic that holds `boom` but
not `42`. -/
theorem definition_fault_code_lost :
    faultRaised plainServer faultyRenderers "http://localhost/RPC2" "" "C" World.initial
        42 "boom" .definition ∧
      main plainServer faultyRenderers "xmlrpc_cpp_proxy"
          ["http://localhost/RPC2", "", "C"] World.initial =
        (1, ⟨"// Interface definition for C class, an XML-RPC FOR C/C++ proxy class\n"
              ++ "// Generated by 'xmlrpc_cpp_proxy'\n\n"
              ++ "#ifndef _C_H_\n#define _C_H_ 1\n\n"
              ++ "#include <string>\n#include <xmlrpc-c/client_simple.hpp>\n\n"
              ++ "class C;\n"
              ++ "\n#endif /* _C_H_ */\n"
              ++ "\n"
              ++ "// C - an XML-RPC FOR C/C++ proxy class\n"
              ++ "// Generated by 'xmlrpc_cpp_proxy'\n\n"
              ++ "#include \"C.h\"\n",
            "xmlrpc_cpp_proxy: Failed to generate definition for class C.  boom\n", "",
            [.listMethods "http://localhost/RPC2",
              .methodHelp "http://localhost/RPC2" "ping",
              .methodSignature "http://localhost/RPC2" "ping"]⟩) ∧
      ¬ occursIn (toString (42 : Int))
        "xmlrpc_cpp_proxy: Failed to generate definition for class C.  boom\n" :=
  ⟨⟨rfl, rfl⟩, rfl, by decide⟩

/-! ## C10: where `printHeader` writes -/

set_option maxRecDepth 100000 in
/-- C10 fails on the code: asked to print to a stream other than `cout`,
`printHeader` ends well but the declarations are written to `cout`; the given
stream gets the lines before and after them only. -/
theorem printHeader_declarations_to_cout :
    printHeader sampleRenderers .other ⟨"SampleProxy", []⟩ World.initial =
      (.ok (),
        ⟨"class SampleProxy;\n", "",
          "// Interface definition for SampleProxy class, "
            ++ "an XML-RPC FOR C/C++ proxy class\n"
            ++ "// Generated by 'xmlrpc_cpp_proxy'\n\n"
            ++ "#ifndef _SampleProxy_H_\n#define _SampleProxy_H_ 1\n\n"
            ++ "#include <string>\n#include <xmlrpc-c/client_simple.hpp>\n\n"
            ++ "\n#endif /* _SampleProxy_H_ */\n",
          []⟩) :=
  rfl

end XmlrpcCppProxy
